import Mathlib

/-!
Shallow embedding of the vegetation-analysis engine found in
src/unnamed/part_001 (component VegetationAnalysis).  JavaScript numbers
are idealised as rationals extended with the three IEEE special values
NaN, Infinity and -Infinity; the sign of zero is not tracked (no claim
depends on it).  Math.pow at a nonzero base with a fractional exponent
is an irrational-valued operation, so it is passed in as an abstract
function parameter; every claim settled here is independent of its
values at nonzero bases.
-/

/-- A JavaScript number: a rational, or one of the IEEE special values. -/
inductive JNum where
  | nan : JNum
  | inf : JNum
  | ninf : JNum
  | num : ℚ → JNum
deriving DecidableEq

/-- IEEE-style addition on JNum (sign of zero ignored). -/
def jadd : JNum → JNum → JNum
  | .nan, _ => .nan
  | _, .nan => .nan
  | .inf, .ninf => .nan
  | .inf, _ => .inf
  | .ninf, .inf => .nan
  | .ninf, _ => .ninf
  | .num _, .inf => .inf
  | .num _, .ninf => .ninf
  | .num a, .num b => .num (a + b)

/-- IEEE-style multiplication on JNum (sign of zero ignored). -/
def jmul : JNum → JNum → JNum
  | .nan, _ => .nan
  | _, .nan => .nan
  | .inf, .inf => .inf
  | .inf, .ninf => .ninf
  | .ninf, .inf => .ninf
  | .ninf, .ninf => .inf
  | .inf, .num b => if b = 0 then .nan else if 0 < b then .inf else .ninf
  | .num a, .inf => if a = 0 then .nan else if 0 < a then .inf else .ninf
  | .ninf, .num b => if b = 0 then .nan else if 0 < b then .ninf else .inf
  | .num a, .ninf => if a = 0 then .nan else if 0 < a then .ninf else .inf
  | .num a, .num b => .num (a * b)

/-- IEEE-style division on JNum: 0/0 is NaN, x/0 is a signed infinity for
nonzero x (the +0 convention: the source never produces a -0 denominator
on the paths the claims touch). -/
def jdiv : JNum → JNum → JNum
  | .nan, _ => .nan
  | _, .nan => .nan
  | .inf, .inf => .nan
  | .inf, .ninf => .nan
  | .ninf, .inf => .nan
  | .ninf, .ninf => .nan
  | .inf, .num b => if 0 ≤ b then .inf else .ninf
  | .ninf, .num b => if 0 ≤ b then .ninf else .inf
  | .num _, .inf => .num 0
  | .num _, .ninf => .num 0
  | .num a, .num b =>
      if b = 0 then (if a = 0 then .nan else if 0 < a then .inf else .ninf)
      else .num (a / b)

/-- Math.pow with the base-zero cases of IEEE pow made explicit; at a
nonzero base the abstract parameter powFn (standing for the transcendental
computation) supplies the value. -/
def jspow (powFn : ℚ → ℚ → JNum) (x e : ℚ) : JNum :=
  if x = 0 then (if 0 < e then .num 0 else if e = 0 then .num 1 else .inf)
  else powFn x e

/-- One pixel of the canvas image data: channel values are bytes 0..255
(the alpha channel is ignored by the engine). -/
structure Pixel where
  r : ℕ
  g : ℕ
  b : ℕ
deriving DecidableEq

/-- The sixteen keys of the ALGORITHMS registry, in source order. -/
inductive IndexKey where
  | INT | NRI | NGI | NBI | RGRI | ExR | ExG | ExB
  | ExGR | GRVI | VARI | GLI | GLA | MGRVI | RGBVI | VEG
deriving DecidableEq

/-- One registry entry: a display name and a formula on (r, g, b).
The formula additionally receives the abstract Math.pow model. -/
structure Algorithm where
  name : String
  calculate : (ℚ → ℚ → JNum) → ℚ → ℚ → ℚ → JNum

/-- The ALGORITHMS registry, translated entry by entry from the source.
Guarded formulas stay inside the rationals; the unguarded divisions of
MGRVI, RGBVI and VEG go through jdiv so that 0/0 and x/0 produce the
IEEE special values exactly as in JavaScript. -/
def ALGORITHMS : IndexKey → Algorithm
  | .INT =>
    { name := "Intensity"
      calculate := fun _ r g b => .num ((r + g + b) / 3) }
  | .NRI =>
    { name := "Normalized Red Index"
      calculate := fun _ r g b =>
        let total := r + g + b
        .num (if 0 < total then r / total else 0) }
  | .NGI =>
    { name := "Normalized Green Index"
      calculate := fun _ r g b =>
        let total := r + g + b
        .num (if 0 < total then g / total else 0) }
  | .NBI =>
    { name := "Normalized Blue Index"
      calculate := fun _ r g b =>
        let total := r + g + b
        .num (if 0 < total then b / total else 0) }
  | .RGRI =>
    { name := "Red Green Ratio Index"
      calculate := fun _ r g b => .num (if 0 < g then r / g else 0) }
  | .ExR =>
    { name := "Excess Red Index"
      calculate := fun _ r g b => .num (1.4 * r - g) }
  | .ExG =>
    { name := "Excess Green Index"
      calculate := fun _ r g b => .num (2 * g - r - b) }
  | .ExB =>
    { name := "Excess Blue Index"
      calculate := fun _ r g b => .num (1.4 * b - g) }
  | .ExGR =>
    { name := "Excess Green minus Red Index"
      calculate := fun _ r g b => .num ((2 * g - r - b) - (1.4 * r - g)) }
  | .GRVI =>
    { name := "Green Red Vegetation Index"
      calculate := fun _ r g b =>
        let denom := g + r
        .num (if 0 < denom then (g - r) / denom else 0) }
  | .VARI =>
    { name := "Visible Atmospherically Resistant Index"
      calculate := fun _ r g b =>
        let denom := g + r - b
        .num (if denom ≠ 0 then (g - r) / denom else 0) }
  | .GLI =>
    { name := "Green Leaf Index"
      calculate := fun _ r g b =>
        let denom := 2 * g + r + b
        .num (if denom ≠ 0 then (2 * g - r - b) / denom else 0) }
  | .GLA =>
    { name := "Green Leaf Algorithm"
      calculate := fun _ r g b =>
        let denom := 2 * g + r + b
        .num (if denom ≠ 0 then (2 * g - r - b) / denom else 0) }
  | .MGRVI =>
    { name := "Modified Green Red Vegetation Index"
      calculate := fun _ r g b =>
        let g2 := g * g
        let r2 := r * r
        jdiv (.num (g2 - r2)) (.num (g2 + r2)) }
  | .RGBVI =>
    { name := "Red Green Blue Vegetation Index"
      calculate := fun _ r g b =>
        let g2 := g * g
        let rb := r * b
        jdiv (.num (g2 - rb)) (.num (g2 + rb)) }
  | .VEG =>
    { name := "Vegetativen"
      calculate := fun powFn r g b =>
        let a : ℚ := 0.667
        jdiv (.num g) (jmul (jspow powFn r a) (jspow powFn b (1 - a))) }

/-- normalizeRGB from the source: divide each channel by the channel sum,
returning (0, 0, 0) for a black pixel. -/
def normalizeRGB (r g b : ℚ) : ℚ × ℚ × ℚ :=
  let total := r + g + b
  if total = 0 then (0, 0, 0) else (r / total, g / total, b / total)

/-- Per-pixel Excess Green on the normalized channels, as computed inside
the pixel loop of processImage. -/
def exgOf (p : Pixel) : ℚ :=
  let (nr, ng, nb) := normalizeRGB p.r p.g p.b
  2 * ng - nr - nb

/-- The value a registry formula takes on one pixel: the formula applied
to the pixel's normalized RGB, as in the pixel loop of processImage. -/
def pixelValue (powFn : ℚ → ℚ → JNum) (k : IndexKey) (p : Pixel) : JNum :=
  let (nr, ng, nb) := normalizeRGB p.r p.g p.b
  (ALGORITHMS k).calculate powFn nr ng nb

/-- JavaScript Math.round: the integer nearest to q, ties toward plus
infinity. -/
def jsRound (q : ℚ) : ℤ := ⌊q + 1 / 2⌋

/-- The histogram bin a pixel falls into inside calculateOtsuThreshold:
Math.round of ((2g - r - b) + 510) / 4 on the raw channels. -/
def binOf (p : Pixel) : ℤ :=
  jsRound ((2 * (p.g : ℚ) - p.r - p.b + 510) / 4)

/-- The 256-bin raw-ExG histogram built by calculateOtsuThreshold. -/
def otsuHistogram (pixels : List Pixel) (i : ℕ) : ℕ :=
  pixels.countP (fun p => binOf p = (i : ℤ))

/-- The mutable locals of the Otsu scan loop; done models the break. -/
structure OtsuState where
  wB : ℕ
  sumB : ℕ
  maxVar : ℚ
  threshold : ℕ
  done : Bool
deriving DecidableEq

/-- One iteration of the Otsu scan over candidate split t, translated
statement by statement from the source loop body (continue keeps the
already-updated wB; break freezes the state). -/
def otsuStep (hist : ℕ → ℕ) (total sum : ℕ) (s : OtsuState) (t : ℕ) : OtsuState :=
  if s.done then s else
  let wB := s.wB + hist t
  if wB = 0 then { s with wB := wB } else
  let wF : ℚ := (total : ℚ) - (wB : ℚ)
  if wF = 0 then { s with wB := wB, done := true } else
  let sumB := s.sumB + t * hist t
  let mB : ℚ := (sumB : ℚ) / (wB : ℚ)
  let mF : ℚ := ((sum : ℚ) - (sumB : ℚ)) / wF
  let variance : ℚ := (wB : ℚ) * wF * (mB - mF) ^ 2
  if s.maxVar < variance then
    { wB := wB, sumB := sumB, maxVar := variance, threshold := t, done := false }
  else
    { s with wB := wB, sumB := sumB }

/-- The initial values of the Otsu scan locals. -/
def otsuInit : OtsuState :=
  { wB := 0, sumB := 0, maxVar := 0, threshold := 0, done := false }

/-- calculateOtsuThreshold from the source: histogram the raw ExG values,
run the between-class-variance scan, and map the winning bin back to the
normalized ExG scale. -/
def calculateOtsuThreshold (pixels : List Pixel) : ℚ :=
  let hist := otsuHistogram pixels
  let total : ℕ := ((List.range 256).map hist).sum
  let sum : ℕ := ((List.range 256).map (fun i => i * hist i)).sum
  let s := (List.range 256).foldl (otsuStep hist total sum) otsuInit
  ((s.threshold : ℚ) * 4 - 510) / 510

/-- The vegetation test of the pixel loop: normalized ExG at least the
current threshold. -/
def isVegetationPixel (τ : ℚ) (p : Pixel) : Bool := decide (exgOf p ≥ τ)

/-- The accumulators of the pixel loop in processImage.  Unselected keys
have no entry in the source's record objects; they are modelled as a
constant 0 that the loop never touches and no claim reads. -/
structure PixState where
  vegetationPixels : ℕ
  mask : List Bool
  wholeIndices : IndexKey → JNum
  vegetationIndices : IndexKey → JNum

/-- The accumulators before the pixel loop runs. -/
def initPixState : PixState :=
  { vegetationPixels := 0
    mask := []
    wholeIndices := fun _ => .num 0
    vegetationIndices := fun _ => .num 0 }

/-- One iteration of the pixel loop of processImage: classify the pixel,
record it in the mask, and add each selected formula's value to the whole
sum and, when classified vegetation, to the vegetation sum. -/
def pixelStep (powFn : ℚ → ℚ → JNum) (sel : IndexKey → Bool) (τ : ℚ)
    (s : PixState) (p : Pixel) : PixState :=
  let isVeg := isVegetationPixel τ p
  { vegetationPixels := if isVeg then s.vegetationPixels + 1 else s.vegetationPixels
    mask := s.mask ++ [isVeg]
    wholeIndices := fun k =>
      if sel k then jadd (s.wholeIndices k) (pixelValue powFn k p)
      else s.wholeIndices k
    vegetationIndices := fun k =>
      if sel k then
        (if isVeg then jadd (s.vegetationIndices k) (pixelValue powFn k p)
         else s.vegetationIndices k)
      else s.vegetationIndices k }

/-- The state after the pixel loop of processImage has visited every
pixel of the buffer. -/
def processState (powFn : ℚ → ℚ → JNum) (sel : IndexKey → Bool) (τ : ℚ)
    (pixels : List Pixel) : PixState :=
  pixels.foldl (pixelStep powFn sel τ) initPixState

/-- The two families of per-index means of an AnalysisResult. -/
structure Indices where
  vegetation : IndexKey → JNum
  whole : IndexKey → JNum

/-- The AnalysisResult record assembled at the end of processImage. -/
structure AnalysisResult where
  vegetationCoverage : JNum
  vegetationPixels : ℕ
  totalPixels : ℕ
  indices : Indices

/-- The threshold method chosen in the UI state. -/
inductive ThresholdMethod where
  | otsu : ThresholdMethod
  | exg : ThresholdMethod
deriving DecidableEq

/-- processImage from the source (its pure core: the canvas plumbing and
the rendering of the binary image are presentation, not engine).  Picks
the current threshold, runs the pixel loop, then divides the accumulated
sums into means and assembles the AnalysisResult. -/
def processImage (powFn : ℚ → ℚ → JNum) (sel : IndexKey → Bool)
    (method : ThresholdMethod) (threshold : ℚ) (pixels : List Pixel) :
    AnalysisResult :=
  let totalPixels := pixels.length
  let currentThreshold :=
    if method = .otsu then calculateOtsuThreshold pixels else threshold
  let s := processState powFn sel currentThreshold pixels
  let wholeIndices := fun k =>
    if sel k then jdiv (s.wholeIndices k) (.num totalPixels)
    else s.wholeIndices k
  let vegetationIndices := fun k =>
    if sel k then
      (if 0 < s.vegetationPixels then
        jdiv (s.vegetationIndices k) (.num s.vegetationPixels)
       else .num 0)
    else s.vegetationIndices k
  { vegetationCoverage :=
      jmul (jdiv (.num s.vegetationPixels) (.num totalPixels)) (.num 100)
    vegetationPixels := s.vegetationPixels
    totalPixels := totalPixels
    indices := { vegetation := vegetationIndices, whole := wholeIndices } }

/-- The spec's analyzeImage entry point: processImage run at an explicit
threshold (the fixed-threshold branch of the source). -/
def analyzeImage (powFn : ℚ → ℚ → JNum) (sel : IndexKey → Bool) (τ : ℚ)
    (pixels : List Pixel) : AnalysisResult :=
  processImage powFn sel .exg τ pixels

/-- Left-to-right sum of a list of JS numbers starting from 0, the order
in which the pixel loop accumulates. -/
def jsumList (l : List JNum) : JNum := l.foldl jadd (.num 0)

/-- Independent restatement of the whole-image running sum of one index:
the formula evaluated on every pixel, summed. -/
def wholeFormulaSum (powFn : ℚ → ℚ → JNum) (k : IndexKey)
    (pixels : List Pixel) : JNum :=
  jsumList (pixels.map (pixelValue powFn k))

/-- Independent restatement of the vegetation running sum of one index:
the formula summed over the vegetation-classified pixels only. -/
def vegFormulaSum (powFn : ℚ → ℚ → JNum) (k : IndexKey) (τ : ℚ)
    (pixels : List Pixel) : JNum :=
  jsumList ((pixels.filter (isVegetationPixel τ)).map (pixelValue powFn k))

/-- Independent count of the vegetation-classified pixels. -/
def vegCount (τ : ℚ) (pixels : List Pixel) : ℕ :=
  pixels.countP (isVegetationPixel τ)

/-- A run of n zero characters, used to left-pad fractional digits. -/
def zeroPad : ℕ → String
  | 0 => ""
  | n + 1 => "0" ++ zeroPad n

/-- Decimal digits of a natural number left-padded with zeros to width w. -/
def padNat (w m : ℕ) : String :=
  zeroPad (w - (toString m).length) ++ toString m

/-- ECMAScript Number.prototype.toFixed on a nonnegative rational: round
q times 10 to the f to the nearest integer, ties toward the larger
integer, then print with f digits after the point. -/
def qToFixedNN (f : ℕ) (q : ℚ) : String :=
  let n : ℤ := ⌊q * (10 : ℚ) ^ f + 1 / 2⌋
  let m : ℕ := n.toNat
  if f = 0 then toString (m / 10 ^ f)
  else toString (m / 10 ^ f) ++ "." ++ padNat f (m % 10 ^ f)

/-- ECMAScript toFixed: a leading minus sign for negative input, then the
nonnegative case. -/
def qToFixed (f : ℕ) (q : ℚ) : String :=
  if q < 0 then "-" ++ qToFixedNN f (-q) else qToFixedNN f q

/-- toFixed lifted to JS numbers: the special values print as their
ECMAScript string forms. -/
def jToFixed (f : ℕ) : JNum → String
  | .nan => "NaN"
  | .inf => "Infinity"
  | .ninf => "-Infinity"
  | .num q => qToFixed f q

/-- The string the source writes into the Threshold Method column: the
thresholdMethod value itself. -/
def methodString : ThresholdMethod → String
  | .otsu => "otsu"
  | .exg => "exg"

/-- JavaScript Array.prototype.join: the elements with the separator
between consecutive ones. -/
def jsJoin (sep : String) : List String → String
  | [] => ""
  | [x] => x
  | x :: y :: xs => x ++ sep ++ jsJoin sep (y :: xs)

/-- One per-image record of a batch run: the filename spread together
with the AnalysisResult. -/
structure BatchRecord where
  filename : String
  result : AnalysisResult

/-- downloadCSV from the source (its string-building core; the Blob and
anchor-click delivery are browser plumbing): header row of the six fixed
columns then one vegetation column and one whole column per selected key,
data rows in batch order, fields joined with commas and rows with
newlines. -/
def downloadCSV (keys : List IndexKey) (method : ThresholdMethod)
    (threshold : ℚ) (results : List BatchRecord) : String :=
  let headers :=
    ["Filename", "Total Pixels", "Vegetation Pixels",
     "Vegetation Coverage (%)", "Threshold Method", "Threshold Value"]
    ++ keys.map (fun key => (ALGORITHMS key).name ++ " (Vegetation)")
    ++ keys.map (fun key => (ALGORITHMS key).name ++ " (Whole)")
  let rows := results.map (fun result =>
    [result.filename,
     toString result.result.totalPixels,
     toString result.result.vegetationPixels,
     jToFixed 2 result.result.vegetationCoverage,
     methodString method,
     if method = .otsu then "auto" else qToFixed 3 threshold]
    ++ keys.map (fun key => jToFixed 4 (result.result.indices.vegetation key))
    ++ keys.map (fun key => jToFixed 4 (result.result.indices.whole key)))
  jsJoin "\n" (jsJoin "," headers :: rows.map (jsJoin ","))

/-- A batch input item: a filename and either a decoded pixel buffer or
the message of a load or analysis failure (loadImage rejecting, modelled
as the error case of Except). -/
abbrev BatchItem := String × Except String (List Pixel)

/-- The record-collection loop of processBatchImages: process the items
in order, stopping at the first failure with that failure. -/
def runBatch (powFn : ℚ → ℚ → JNum) (sel : IndexKey → Bool)
    (method : ThresholdMethod) (τ : ℚ) :
    List BatchItem → Except String (List BatchRecord)
  | [] => .ok []
  | (_, .error e) :: _ => .error e
  | (name, .ok pixels) :: rest =>
    match runBatch powFn sel method τ rest with
    | .error e => .error e
    | .ok rs =>
      .ok ({ filename := name
             result := processImage powFn sel method τ pixels } :: rs)

/-- processBatchImages from the source: collect all records, then hand
them to downloadCSV; any failure aborts the run before any CSV exists. -/
def processBatchImages (powFn : ℚ → ℚ → JNum) (sel : IndexKey → Bool)
    (keys : List IndexKey) (method : ThresholdMethod) (τ : ℚ)
    (files : List BatchItem) : Except String String :=
  match runBatch powFn sel method τ files with
  | .error e => .error e
  | .ok results => .ok (downloadCSV keys method τ results)

/-- Modelled from the spec (section 6 of spec.md), for the refinement
claim about the CSV contract: the block of vegetation header columns,
one per selected key, each preceded by the field delimiter. -/
def specVegCols : List IndexKey → String
  | [] => ""
  | k :: ks => "," ++ (ALGORITHMS k).name ++ " (Vegetation)" ++ specVegCols ks

/-- Modelled from the spec: the block of whole-image header columns. -/
def specWholeCols : List IndexKey → String
  | [] => ""
  | k :: ks => "," ++ (ALGORITHMS k).name ++ " (Whole)" ++ specWholeCols ks

/-- Modelled from the spec: the header row, the six fixed column names
followed by the vegetation block then the whole block. -/
def specHeader (keys : List IndexKey) : String :=
  "Filename,Total Pixels,Vegetation Pixels,Vegetation Coverage (%),Threshold Method,Threshold Value"
  ++ specVegCols keys ++ specWholeCols keys

/-- Modelled from the spec: the vegetation index cells of one data row,
formatted to 4 decimals. -/
def specVegVals (r : AnalysisResult) : List IndexKey → String
  | [] => ""
  | k :: ks => "," ++ jToFixed 4 (r.indices.vegetation k) ++ specVegVals r ks

/-- Modelled from the spec: the whole-image index cells of one data row. -/
def specWholeVals (r : AnalysisResult) : List IndexKey → String
  | [] => ""
  | k :: ks => "," ++ jToFixed 4 (r.indices.whole k) ++ specWholeVals r ks

/-- Modelled from the spec: one data row, filename then counts, coverage
to 2 decimals, the method literal, the auto marker or the fixed value to
3 decimals, then the two index blocks in key order. -/
def specRow (keys : List IndexKey) (method : ThresholdMethod) (τ : ℚ)
    (rec : BatchRecord) : String :=
  rec.filename ++ "," ++ toString rec.result.totalPixels ++ ","
  ++ toString rec.result.vegetationPixels ++ ","
  ++ jToFixed 2 rec.result.vegetationCoverage ++ ","
  ++ methodString method ++ ","
  ++ (if method = .otsu then "auto" else qToFixed 3 τ)
  ++ specVegVals rec.result keys ++ specWholeVals rec.result keys

/-- Modelled from the spec: the data rows in input batch order, each
preceded by the row delimiter. -/
def specRows (keys : List IndexKey) (method : ThresholdMethod) (τ : ℚ) :
    List BatchRecord → String
  | [] => ""
  | r :: rs => "\n" ++ specRow keys method τ r ++ specRows keys method τ rs

/-- Modelled from the spec: the whole CSV document. -/
def exportCsvSpec (keys : List IndexKey) (method : ThresholdMethod) (τ : ℚ)
    (records : List BatchRecord) : String :=
  specHeader keys ++ specRows keys method τ records

/-- A concrete stand-in for the abstract Math.pow model, used to
instantiate witnesses. -/
def constPow : ℚ → ℚ → JNum := fun _ _ => .num 0

/-- The all-selected index set (the source's initial UI state). -/
def selAll : IndexKey → Bool := fun _ => true

/-- The tail of a JavaScript join: one separator before every element. -/
def sepFold (sep : String) : List String → String
  | [] => ""
  | y :: ys => sep ++ y ++ sepFold sep ys

lemma foldl_pixelStep_vegetationPixels (powFn : ℚ → ℚ → JNum)
    (sel : IndexKey → Bool) (τ : ℚ) (pixels : List Pixel) :
    ∀ s : PixState,
      (pixels.foldl (pixelStep powFn sel τ) s).vegetationPixels
        = s.vegetationPixels + vegCount τ pixels := by
  induction pixels with
  | nil => intro s; simp [vegCount]
  | cons p ps ih =>
    intro s
    rw [List.foldl_cons, ih]
    simp only [pixelStep, vegCount, List.countP_cons]
    by_cases h : isVegetationPixel τ p
    · simp [h, vegCount]; omega
    · simp [h, vegCount]

lemma foldl_pixelStep_mask (powFn : ℚ → ℚ → JNum)
    (sel : IndexKey → Bool) (τ : ℚ) (pixels : List Pixel) :
    ∀ s : PixState,
      (pixels.foldl (pixelStep powFn sel τ) s).mask
        = s.mask ++ pixels.map (isVegetationPixel τ) := by
  induction pixels with
  | nil => intro s; simp
  | cons p ps ih =>
    intro s
    rw [List.foldl_cons, ih]
    simp [pixelStep]

lemma foldl_pixelStep_whole (powFn : ℚ → ℚ → JNum)
    (sel : IndexKey → Bool) (τ : ℚ) (pixels : List Pixel) (k : IndexKey) :
    ∀ s : PixState,
      (pixels.foldl (pixelStep powFn sel τ) s).wholeIndices k
        = if sel k then
            (pixels.map (pixelValue powFn k)).foldl jadd (s.wholeIndices k)
          else s.wholeIndices k := by
  induction pixels with
  | nil => intro s; simp
  | cons p ps ih =>
    intro s
    rw [List.foldl_cons, ih]
    by_cases h : sel k <;> simp [pixelStep, h]

lemma foldl_pixelStep_vegIndices (powFn : ℚ → ℚ → JNum)
    (sel : IndexKey → Bool) (τ : ℚ) (pixels : List Pixel) (k : IndexKey) :
    ∀ s : PixState,
      (pixels.foldl (pixelStep powFn sel τ) s).vegetationIndices k
        = if sel k then
            ((pixels.filter (isVegetationPixel τ)).map
              (pixelValue powFn k)).foldl jadd (s.vegetationIndices k)
          else s.vegetationIndices k := by
  induction pixels with
  | nil => intro s; simp
  | cons p ps ih =>
    intro s
    rw [List.foldl_cons, ih]
    by_cases h : sel k
    · by_cases hv : isVegetationPixel τ p <;>
        simp [pixelStep, h, hv, List.filter_cons]
    · simp [pixelStep, h]

/-- C8: the registry entries GLA and GLI are distinct keys whose
calculate functions agree on every input triple. -/
theorem gla_eq_gli :
    IndexKey.GLA ≠ IndexKey.GLI ∧
    ∀ (powFn : ℚ → ℚ → JNum) (r g b : ℚ),
      (ALGORITHMS IndexKey.GLA).calculate powFn r g b
        = (ALGORITHMS IndexKey.GLI).calculate powFn r g b := by
  exact ⟨by decide, fun powFn r g b => rfl⟩

/-- C9: the unguarded formulas MGRVI, RGBVI and VEG yield NaN on a black
pixel (0/0) and VEG yields Infinity when a zero channel makes its
denominator vanish; these values are not errors and propagate through the
running sums into the aggregated whole-image mean, which becomes NaN for
a one-black-pixel image with every index selected. -/
theorem degenerate_nan_propagation :
    ∀ powFn : ℚ → ℚ → JNum,
      (ALGORITHMS IndexKey.MGRVI).calculate powFn 0 0 0 = JNum.nan
      ∧ (ALGORITHMS IndexKey.RGBVI).calculate powFn 0 0 0 = JNum.nan
      ∧ (ALGORITHMS IndexKey.VEG).calculate powFn 0 0 0 = JNum.nan
      ∧ (ALGORITHMS IndexKey.VEG).calculate powFn 0 1 0 = JNum.inf
      ∧ (analyzeImage powFn (fun _ => true) 0 [⟨0, 0, 0⟩]).indices.whole
          IndexKey.MGRVI = JNum.nan := by
  intro powFn
  refine ⟨?_, ?_, ?_, ?_, ?_⟩
  · norm_num [ALGORITHMS, jdiv]
  · norm_num [ALGORITHMS, jdiv]
  · norm_num [ALGORITHMS, jdiv, jmul, jspow]
  · norm_num [ALGORITHMS, jdiv, jmul, jspow]
  · norm_num [analyzeImage, processImage, processState, pixelStep,
      initPixState, pixelValue, normalizeRGB, ALGORITHMS, jdiv, jadd, jmul]


/-- C1: for a nonempty buffer, each selected whole-image index of the
analysis result is the running formula sum divided by the pixel count,
each vegetation index is the vegetation sum divided by the vegetation
count when that count is positive and 0 otherwise, and the coverage is
100 times the vegetation count over the pixel count. -/
theorem analyzeImage_means_spec (powFn : ℚ → ℚ → JNum) (sel : IndexKey → Bool)
    (τ : ℚ) (pixels : List Pixel) (k : IndexKey)
    (htotal : 0 < pixels.length) (hsel : sel k = true) :
    (analyzeImage powFn sel τ pixels).indices.whole k
        = jdiv (wholeFormulaSum powFn k pixels) (JNum.num pixels.length)
    ∧ (analyzeImage powFn sel τ pixels).indices.vegetation k
        = (if 0 < vegCount τ pixels then
            jdiv (vegFormulaSum powFn k τ pixels) (JNum.num (vegCount τ pixels))
          else JNum.num 0)
    ∧ (analyzeImage powFn sel τ pixels).vegetationCoverage
        = JNum.num (100 * (vegCount τ pixels : ℚ) / (pixels.length : ℚ)) := by
  have hws := foldl_pixelStep_whole powFn sel τ pixels k initPixState
  have hvs := foldl_pixelStep_vegIndices powFn sel τ pixels k initPixState
  have hvp := foldl_pixelStep_vegetationPixels powFn sel τ pixels initPixState
  simp only [initPixState, hsel, if_true, zero_add] at hws hvs hvp
  have hlen : ((pixels.length : ℚ)) ≠ 0 :=
    ne_of_gt (by exact_mod_cast htotal)
  refine ⟨?_, ?_, ?_⟩
  · simp only [analyzeImage, processImage, processState, initPixState,
      if_neg (by decide : ¬ (ThresholdMethod.exg = ThresholdMethod.otsu)),
      hsel, if_true]
    rw [hws]
    rfl
  · simp only [analyzeImage, processImage, processState, initPixState,
      if_neg (by decide : ¬ (ThresholdMethod.exg = ThresholdMethod.otsu)),
      hsel, if_true]
    rw [hvs, hvp]
    rfl
  · simp only [analyzeImage, processImage, processState, initPixState,
      if_neg (by decide : ¬ (ThresholdMethod.exg = ThresholdMethod.otsu))]
    rw [hvp]
    simp only [jdiv, jmul, if_neg hlen, JNum.num.injEq]
    ring

/-- Witness for C1 at a concrete one-pixel pure-green image with the
Excess Green index selected. -/
theorem analyzeImage_means_spec_witness :
    0 < ([⟨0, 255, 0⟩] : List Pixel).length ∧ selAll IndexKey.ExG = true ∧
    ((analyzeImage constPow selAll 0 [⟨0, 255, 0⟩]).indices.whole IndexKey.ExG
        = jdiv (wholeFormulaSum constPow IndexKey.ExG [⟨0, 255, 0⟩])
            (JNum.num ([⟨0, 255, 0⟩] : List Pixel).length)
    ∧ (analyzeImage constPow selAll 0 [⟨0, 255, 0⟩]).indices.vegetation
          IndexKey.ExG
        = (if 0 < vegCount 0 [⟨0, 255, 0⟩] then
            jdiv (vegFormulaSum constPow IndexKey.ExG 0 [⟨0, 255, 0⟩])
              (JNum.num (vegCount 0 [⟨0, 255, 0⟩]))
          else JNum.num 0)
    ∧ (analyzeImage constPow selAll 0 [⟨0, 255, 0⟩]).vegetationCoverage
        = JNum.num (100 * (vegCount 0 [⟨0, 255, 0⟩] : ℚ)
            / (([⟨0, 255, 0⟩] : List Pixel).length : ℚ))) :=
  ⟨by decide, rfl,
    analyzeImage_means_spec constPow selAll 0 [⟨0, 255, 0⟩] IndexKey.ExG
      (by decide) rfl⟩

/-- C2: the mask recorded by the pixel loop holds true exactly for the
pixels whose normalized Excess Green is at least the threshold, the
vegetation count is the number of such pixels, and a black pixel
normalizes to (0, 0, 0) and so has Excess Green 0. -/
theorem processState_mask_spec (powFn : ℚ → ℚ → JNum) (sel : IndexKey → Bool)
    (τ : ℚ) (pixels : List Pixel) :
    (processState powFn sel τ pixels).mask
        = pixels.map (fun p => decide (exgOf p ≥ τ))
    ∧ (processState powFn sel τ pixels).vegetationPixels
        = pixels.countP (fun p => decide (exgOf p ≥ τ))
    ∧ normalizeRGB 0 0 0 = (0, 0, 0)
    ∧ exgOf ⟨0, 0, 0⟩ = 0 := by
  refine ⟨?_, ?_, by norm_num [normalizeRGB], by norm_num [exgOf, normalizeRGB]⟩
  · have h := foldl_pixelStep_mask powFn sel τ pixels initPixState
    simpa [processState, initPixState, isVegetationPixel] using h
  · have h := foldl_pixelStep_vegetationPixels powFn sel τ pixels initPixState
    simpa [processState, initPixState, vegCount, isVegetationPixel] using h

/-- C5 counterexample: on an empty buffer (totalPixels = 0) analyzeImage
does not fail; it returns an ordinary AnalysisResult whose coverage and
whole means are NaN and whose vegetation means are 0. -/
theorem analyzeImage_empty_returns_result :
    (analyzeImage constPow selAll 0 []).totalPixels = 0
    ∧ (analyzeImage constPow selAll 0 []).vegetationPixels = 0
    ∧ (analyzeImage constPow selAll 0 []).vegetationCoverage = JNum.nan
    ∧ (analyzeImage constPow selAll 0 []).indices.whole IndexKey.ExG = JNum.nan
    ∧ (analyzeImage constPow selAll 0 []).indices.vegetation IndexKey.ExG
        = JNum.num 0 := by
  decide

/-- C5 amended: on a buffer with totalPixels = 0, analyzeImage returns an
AnalysisResult (no error path exists) with NaN coverage, NaN whole mean
and zero vegetation mean at every selected key. -/
theorem analyzeImage_empty_nan (powFn : ℚ → ℚ → JNum) (sel : IndexKey → Bool)
    (τ : ℚ) (pixels : List Pixel) (k : IndexKey)
    (hempty : pixels.length = 0) (hsel : sel k = true) :
    (analyzeImage powFn sel τ pixels).totalPixels = 0
    ∧ (analyzeImage powFn sel τ pixels).vegetationCoverage = JNum.nan
    ∧ (analyzeImage powFn sel τ pixels).indices.whole k = JNum.nan
    ∧ (analyzeImage powFn sel τ pixels).indices.vegetation k = JNum.num 0 := by
  rw [List.length_eq_zero] at hempty
  subst hempty
  refine ⟨rfl, ?_, ?_, ?_⟩ <;>
    norm_num [analyzeImage, processImage, processState, initPixState, hsel,
      jdiv, jmul]

/-- Witness for C5 amended at the empty buffer with every index selected. -/
theorem analyzeImage_empty_nan_witness :
    ([] : List Pixel).length = 0 ∧ selAll IndexKey.GLI = true ∧
    ((analyzeImage constPow selAll 0 []).totalPixels = 0
    ∧ (analyzeImage constPow selAll 0 []).vegetationCoverage = JNum.nan
    ∧ (analyzeImage constPow selAll 0 []).indices.whole IndexKey.GLI = JNum.nan
    ∧ (analyzeImage constPow selAll 0 []).indices.vegetation IndexKey.GLI
        = JNum.num 0) :=
  ⟨rfl, rfl, analyzeImage_empty_nan constPow selAll 0 [] IndexKey.GLI rfl rfl⟩

lemma otsuStep_trivial (hist : ℕ → ℕ) (total sum : ℕ) (t : ℕ)
    (ht : hist t = 0 ∨ (hist t : ℚ) = (total : ℚ)) (s : OtsuState)
    (h1 : s.threshold = 0)
    (h2 : s.done = true ∨ (s.wB = 0 ∧ s.done = false)) :
    (otsuStep hist total sum s t).threshold = 0
    ∧ ((otsuStep hist total sum s t).done = true
       ∨ ((otsuStep hist total sum s t).wB = 0
          ∧ (otsuStep hist total sum s t).done = false)) := by
  rcases h2 with hdone | ⟨hwB, hdone⟩
  · simp [otsuStep, hdone, h1]
  · by_cases hz : hist t = 0
    · simp [otsuStep, hdone, hwB, hz, h1]
    · have htot : (hist t : ℚ) = (total : ℚ) := ht.resolve_left hz
      have hwFz : (total : ℚ) - ((hist t : ℕ) : ℚ) = 0 := by
        rw [htot]; ring
      simp [otsuStep, hdone, hwB, hz, h1, hwFz]

lemma otsu_foldl_trivial (hist : ℕ → ℕ) (total sum : ℕ) (l : List ℕ)
    (htot : ∀ t ∈ l, hist t = 0 ∨ (hist t : ℚ) = (total : ℚ)) :
    ∀ s : OtsuState, s.threshold = 0 →
      (s.done = true ∨ (s.wB = 0 ∧ s.done = false)) →
      (l.foldl (otsuStep hist total sum) s).threshold = 0 := by
  induction l with
  | nil => intro s h1 _; simpa using h1
  | cons t ts ih =>
    intro s h1 h2
    rw [List.foldl_cons]
    obtain ⟨h1', h2'⟩ :=
      otsuStep_trivial hist total sum t (htot t (List.mem_cons_self t ts)) s h1 h2
    exact ih (fun u hu => htot u (List.mem_cons_of_mem _ hu)) _ h1' h2'

lemma sum_map_single (f : ℕ → ℕ) (t0 : ℕ) :
    ∀ l : List ℕ, l.Nodup → t0 ∈ l → (∀ i ∈ l, i ≠ t0 → f i = 0) →
      (l.map f).sum = f t0 := by
  intro l
  induction l with
  | nil => intro _ hmem; cases hmem
  | cons a as ih =>
    intro hnd hmem hz
    rw [List.map_cons, List.sum_cons]
    rcases List.mem_cons.mp hmem with rfl | hmem'
    · have hzero : (as.map f).sum = 0 := by
        apply List.sum_eq_zero
        intro x hx
        obtain ⟨i, hi, rfl⟩ := List.mem_map.mp hx
        exact hz i (List.mem_cons_of_mem _ hi)
          (fun h => (List.nodup_cons.mp hnd).1 (h ▸ hi))
      omega
    · have ha : f a = 0 :=
        hz a (List.mem_cons_self a as)
          (fun h => (List.nodup_cons.mp hnd).1 (h ▸ hmem'))
      rw [ha, ih (List.nodup_cons.mp hnd).2 hmem'
        (fun i hi hne => hz i (List.mem_cons_of_mem _ hi) hne)]
      omega

lemma otsu_singleBin (pixels : List Pixel)
    (huni : ∃ b : ℤ, ∀ p ∈ pixels, binOf p = b) :
    calculateOtsuThreshold pixels = -1 := by
  obtain ⟨b, hb⟩ := huni
  have hhist : ∀ t ∈ List.range 256,
      otsuHistogram pixels t = 0
      ∨ ((otsuHistogram pixels t : ℚ)
          = ((((List.range 256).map (otsuHistogram pixels)).sum : ℕ) : ℚ)) := by
    intro t htr
    by_cases hbt : (t : ℤ) = b
    · right
      have hall : otsuHistogram pixels t = pixels.length := by
        unfold otsuHistogram
        rw [List.countP_eq_length]
        intro p hp
        simp [hb p hp, hbt]
      have hothers : ∀ i ∈ List.range 256, i ≠ t → otsuHistogram pixels i = 0 := by
        intro i _ hit
        unfold otsuHistogram
        rw [List.countP_eq_zero]
        intro p hp
        have hpt : binOf p = (t : ℤ) := (hb p hp).trans hbt.symm
        simp only [hpt, decide_eq_true_eq]
        exact fun hco => hit (Int.natCast_inj.mp hco).symm
      rw [sum_map_single (otsuHistogram pixels) t (List.range 256)
        (List.nodup_range 256) htr hothers, hall]
    · left
      unfold otsuHistogram
      rw [List.countP_eq_zero]
      intro p hp
      simp only [hb p hp, decide_eq_true_eq]
      exact fun h => hbt h.symm
  simp only [calculateOtsuThreshold]
  rw [otsu_foldl_trivial (otsuHistogram pixels)
    ((List.map (otsuHistogram pixels) (List.range 256)).sum)
    ((List.map (fun i => i * otsuHistogram pixels i) (List.range 256)).sum)
    (List.range 256) hhist otsuInit rfl (Or.inr ⟨rfl, rfl⟩)]
  norm_num

/-- C3 counterexample: on an empty pixel buffer the AUTO (Otsu) threshold
is not 0 (it is -1, the bin-0 fallback mapped through (4t - 510) / 510). -/
theorem otsu_empty_not_zero : calculateOtsuThreshold [] ≠ 0 := by
  have h : calculateOtsuThreshold [] = -1 :=
    otsu_singleBin [] ⟨0, by intro p hp; cases hp⟩
  rw [h]
  norm_num

/-- C3 amended: computeThreshold with the AUTO method is a total function
(no failure path exists) and on an empty pixel buffer it returns the
fallback -1: the scan never moves the winning bin off 0, and bin 0 maps
to (4 times 0 - 510) / 510 = -1. -/
theorem otsu_empty_eq_neg_one : calculateOtsuThreshold [] = -1 :=
  otsu_singleBin [] ⟨0, by intro p hp; cases hp⟩

/-- C4 counterexample: the uniform one-black-pixel image lands entirely
in bin 128, yet the AUTO threshold is -1, not (4 times 128 - 510) / 510. -/
theorem otsu_uniform_counterexample :
    binOf ⟨0, 0, 0⟩ = 128
    ∧ calculateOtsuThreshold [⟨0, 0, 0⟩] = -1
    ∧ calculateOtsuThreshold [⟨0, 0, 0⟩] ≠ (4 * 128 - 510) / 510 := by
  have hbin : binOf ⟨0, 0, 0⟩ = 128 := by norm_num [binOf, jsRound]
  have h : calculateOtsuThreshold [⟨0, 0, 0⟩] = -1 :=
    otsu_singleBin [⟨0, 0, 0⟩]
      ⟨128, by simp only [List.mem_singleton]; rintro p rfl; exact hbin⟩
  refine ⟨hbin, h, ?_⟩
  rw [h]
  norm_num

/-- C4 amended: on every nonempty uniform image (all pixels in one and
the same histogram bin) the AUTO (Otsu) threshold is -1: every candidate
split is skipped because the background or the foreground class is empty,
so the winning bin stays at its initial 0. -/
theorem otsu_uniform_eq_neg_one (pixels : List Pixel) (hne : pixels ≠ [])
    (huni : ∃ b : ℤ, ∀ p ∈ pixels, binOf p = b) :
    calculateOtsuThreshold pixels = -1 :=
  otsu_singleBin pixels huni

/-- Witness for C4 amended at the one-black-pixel image. -/
theorem otsu_uniform_eq_neg_one_witness :
    ([⟨0, 0, 0⟩] : List Pixel) ≠ []
    ∧ calculateOtsuThreshold [⟨0, 0, 0⟩] = -1 := by
  have hbin : ∀ p ∈ ([⟨0, 0, 0⟩] : List Pixel), binOf p = 128 := by
    simp only [List.mem_singleton]
    rintro p rfl
    norm_num [binOf, jsRound]
  exact ⟨by decide, otsu_uniform_eq_neg_one [⟨0, 0, 0⟩] (by decide) ⟨128, hbin⟩⟩

lemma otsu_foldl_threshold_le (hist : ℕ → ℕ) (total sum : ℕ) (l : List ℕ)
    (hl : ∀ t ∈ l, t ≤ 255) :
    ∀ s : OtsuState, s.threshold ≤ 255 →
      (l.foldl (otsuStep hist total sum) s).threshold ≤ 255 := by
  induction l with
  | nil => intro s h; simpa using h
  | cons t ts ih =>
    intro s h
    rw [List.foldl_cons]
    apply ih (fun u hu => hl u (List.mem_cons_of_mem _ hu))
    have ht : t ≤ 255 := hl t (List.mem_cons_self t ts)
    simp only [otsuStep]
    split_ifs <;> simp_all

/-- C10: with all channel values in 0..255 every pixel's histogram bin
lies in 0..255 (so every increment of the 256-entry histogram array is in
bounds), and the returned AUTO threshold always lies in the interval
from -1 to 1. -/
theorem otsu_bin_range_and_threshold_bounds (pixels : List Pixel)
    (hch : ∀ p ∈ pixels, p.r ≤ 255 ∧ p.g ≤ 255 ∧ p.b ≤ 255) :
    (∀ p ∈ pixels, 0 ≤ binOf p ∧ binOf p ≤ 255)
    ∧ -1 ≤ calculateOtsuThreshold pixels
    ∧ calculateOtsuThreshold pixels ≤ 1 := by
  have hT : ((List.range 256).foldl
      (otsuStep (otsuHistogram pixels)
        ((List.map (otsuHistogram pixels) (List.range 256)).sum)
        ((List.map (fun i => i * otsuHistogram pixels i)
          (List.range 256)).sum))
      otsuInit).threshold ≤ 255 := by
    apply otsu_foldl_threshold_le
    · intro t htm
      have := List.mem_range.mp htm
      omega
    · decide
  refine ⟨?_, ?_, ?_⟩
  · intro p hp
    obtain ⟨hr, hg, hb⟩ := hch p hp
    have hrq : (p.r : ℚ) ≤ 255 := by exact_mod_cast hr
    have hgq : (p.g : ℚ) ≤ 255 := by exact_mod_cast hg
    have hbq : (p.b : ℚ) ≤ 255 := by exact_mod_cast hb
    have hr0 : (0 : ℚ) ≤ (p.r : ℚ) := by positivity
    have hg0 : (0 : ℚ) ≤ (p.g : ℚ) := by positivity
    have hb0 : (0 : ℚ) ≤ (p.b : ℚ) := by positivity
    unfold binOf jsRound
    constructor
    · rw [Int.le_floor]
      push_cast
      linarith
    · have hlt : (2 * (p.g : ℚ) - p.r - p.b + 510) / 4 + 1 / 2
          < ((256 : ℤ) : ℚ) := by
        push_cast
        linarith
      have hfl := Int.floor_lt.mpr hlt
      omega
  · simp only [calculateOtsuThreshold]
    rw [le_div_iff₀ (by norm_num : (0 : ℚ) < 510)]
    have h0 : (0 : ℚ) ≤ (((List.range 256).foldl
        (otsuStep (otsuHistogram pixels)
          ((List.map (otsuHistogram pixels) (List.range 256)).sum)
          ((List.map (fun i => i * otsuHistogram pixels i)
            (List.range 256)).sum))
        otsuInit).threshold : ℚ) := Nat.cast_nonneg _
    linarith
  · simp only [calculateOtsuThreshold]
    rw [div_le_one (by norm_num : (0 : ℚ) < 510)]
    have : (((List.range 256).foldl
        (otsuStep (otsuHistogram pixels)
          ((List.map (otsuHistogram pixels) (List.range 256)).sum)
          ((List.map (fun i => i * otsuHistogram pixels i)
            (List.range 256)).sum))
        otsuInit).threshold : ℚ) ≤ 255 := by exact_mod_cast hT
    linarith

/-- Witness for C10 at the one-black-pixel image. -/
theorem otsu_bin_range_and_threshold_bounds_witness :
    (∀ p ∈ ([⟨0, 0, 0⟩] : List Pixel), p.r ≤ 255 ∧ p.g ≤ 255 ∧ p.b ≤ 255)
    ∧ ((∀ p ∈ ([⟨0, 0, 0⟩] : List Pixel), 0 ≤ binOf p ∧ binOf p ≤ 255)
       ∧ -1 ≤ calculateOtsuThreshold [⟨0, 0, 0⟩]
       ∧ calculateOtsuThreshold [⟨0, 0, 0⟩] ≤ 1) :=
  ⟨by decide, otsu_bin_range_and_threshold_bounds [⟨0, 0, 0⟩] (by decide)⟩

lemma runBatch_error_of_mem (powFn : ℚ → ℚ → JNum) (sel : IndexKey → Bool)
    (method : ThresholdMethod) (τ : ℚ) (name e : String) :
    ∀ files : List BatchItem, (name, Except.error e) ∈ files →
      ∃ e', runBatch powFn sel method τ files = Except.error e' := by
  intro files
  induction files with
  | nil => intro hmem; cases hmem
  | cons f fs ih =>
    intro hmem
    obtain ⟨fname, fres⟩ := f
    rcases List.mem_cons.mp hmem with heq | hmem'
    · cases heq
      exact ⟨e, rfl⟩
    · cases fres with
      | error e'' => exact ⟨e'', rfl⟩
      | ok pixels =>
        obtain ⟨e', he'⟩ := ih hmem'
        exact ⟨e', by simp [runBatch, he']⟩

/-- C6: if any batch item failed to load or analyse, the whole batch run
aborts with an error: no CSV document is produced and no record of the
run survives (the error result carries neither). -/
theorem processBatchImages_fail_fast (powFn : ℚ → ℚ → JNum)
    (sel : IndexKey → Bool) (keys : List IndexKey) (method : ThresholdMethod)
    (τ : ℚ) (files : List BatchItem) (name e : String)
    (hmem : (name, Except.error e) ∈ files) :
    (∃ e', processBatchImages powFn sel keys method τ files
        = Except.error e')
    ∧ ∀ csv, processBatchImages powFn sel keys method τ files
        ≠ Except.ok csv := by
  obtain ⟨e', he'⟩ :=
    runBatch_error_of_mem powFn sel method τ name e files hmem
  refine ⟨⟨e', ?_⟩, ?_⟩
  · simp [processBatchImages, he']
  · intro csv hcsv
    simp [processBatchImages, he'] at hcsv

/-- Witness for C6 at a one-item batch whose only image fails to load. -/
theorem processBatchImages_fail_fast_witness :
    ("a.png", (Except.error "decode failure" : Except String (List Pixel)))
        ∈ ([("a.png", Except.error "decode failure")] : List BatchItem)
    ∧ ((∃ e', processBatchImages constPow selAll [] ThresholdMethod.otsu 0
          [("a.png", Except.error "decode failure")] = Except.error e')
       ∧ ∀ csv, processBatchImages constPow selAll [] ThresholdMethod.otsu 0
          [("a.png", Except.error "decode failure")] ≠ Except.ok csv) :=
  ⟨List.mem_singleton.mpr rfl,
    processBatchImages_fail_fast constPow selAll [] ThresholdMethod.otsu 0
      [("a.png", Except.error "decode failure")] "a.png" "decode failure"
      (List.mem_singleton.mpr rfl)⟩

lemma jsJoin_cons (sep : String) : ∀ (xs : List String) (x : String),
    jsJoin sep (x :: xs) = x ++ sepFold sep xs := by
  intro xs
  induction xs with
  | nil => intro x; simp [jsJoin, sepFold]
  | cons y ys ih =>
    intro x
    rw [show jsJoin sep (x :: y :: ys) = x ++ sep ++ jsJoin sep (y :: ys)
      from rfl, ih y]
    simp [sepFold, String.append_assoc]

lemma sepFold_append (sep : String) (l1 l2 : List String) :
    sepFold sep (l1 ++ l2) = sepFold sep l1 ++ sepFold sep l2 := by
  induction l1 with
  | nil => simp [sepFold]
  | cons y ys ih => simp [sepFold, ih, String.append_assoc]

lemma sepFold_vegCols (keys : List IndexKey) :
    sepFold ","
      (keys.map (fun key => (ALGORITHMS key).name ++ " (Vegetation)"))
      = specVegCols keys := by
  induction keys with
  | nil => rfl
  | cons k ks ih => simp [sepFold, specVegCols, ih, String.append_assoc]

lemma sepFold_wholeCols (keys : List IndexKey) :
    sepFold ","
      (keys.map (fun key => (ALGORITHMS key).name ++ " (Whole)"))
      = specWholeCols keys := by
  induction keys with
  | nil => rfl
  | cons k ks ih => simp [sepFold, specWholeCols, ih, String.append_assoc]

lemma sepFold_vegVals (r : AnalysisResult) (keys : List IndexKey) :
    sepFold ","
      (keys.map (fun key => jToFixed 4 (r.indices.vegetation key)))
      = specVegVals r keys := by
  induction keys with
  | nil => rfl
  | cons k ks ih => simp [sepFold, specVegVals, ih, String.append_assoc]

lemma sepFold_wholeVals (r : AnalysisResult) (keys : List IndexKey) :
    sepFold ","
      (keys.map (fun key => jToFixed 4 (r.indices.whole key)))
      = specWholeVals r keys := by
  induction keys with
  | nil => rfl
  | cons k ks ih => simp [sepFold, specWholeVals, ih, String.append_assoc]

lemma jsJoin_header (keys : List IndexKey) :
    jsJoin ","
      (["Filename", "Total Pixels", "Vegetation Pixels",
        "Vegetation Coverage (%)", "Threshold Method", "Threshold Value"]
       ++ keys.map (fun key => (ALGORITHMS key).name ++ " (Vegetation)")
       ++ keys.map (fun key => (ALGORITHMS key).name ++ " (Whole)"))
      = specHeader keys := by
  rw [show (["Filename", "Total Pixels", "Vegetation Pixels",
        "Vegetation Coverage (%)", "Threshold Method", "Threshold Value"]
       ++ keys.map (fun key => (ALGORITHMS key).name ++ " (Vegetation)")
       ++ keys.map (fun key => (ALGORITHMS key).name ++ " (Whole)"))
      = "Filename" :: (["Total Pixels", "Vegetation Pixels",
        "Vegetation Coverage (%)", "Threshold Method", "Threshold Value"]
       ++ keys.map (fun key => (ALGORITHMS key).name ++ " (Vegetation)")
       ++ keys.map (fun key => (ALGORITHMS key).name ++ " (Whole)"))
      from rfl]
  rw [jsJoin_cons, sepFold_append, sepFold_append, sepFold_vegCols,
    sepFold_wholeCols, specHeader]
  rw [show ("Filename,Total Pixels,Vegetation Pixels,Vegetation Coverage (%),Threshold Method,Threshold Value" : String)
      = "Filename" ++ sepFold "," ["Total Pixels", "Vegetation Pixels",
        "Vegetation Coverage (%)", "Threshold Method", "Threshold Value"]
      from rfl]
  simp [String.append_assoc]

lemma jsJoin_row (keys : List IndexKey) (method : ThresholdMethod) (τ : ℚ)
    (rec : BatchRecord) :
    jsJoin ","
      ([rec.filename, toString rec.result.totalPixels,
        toString rec.result.vegetationPixels,
        jToFixed 2 rec.result.vegetationCoverage, methodString method,
        if method = ThresholdMethod.otsu then "auto" else qToFixed 3 τ]
       ++ keys.map (fun key => jToFixed 4 (rec.result.indices.vegetation key))
       ++ keys.map (fun key => jToFixed 4 (rec.result.indices.whole key)))
      = specRow keys method τ rec := by
  rw [show ([rec.filename, toString rec.result.totalPixels,
        toString rec.result.vegetationPixels,
        jToFixed 2 rec.result.vegetationCoverage, methodString method,
        if method = ThresholdMethod.otsu then "auto" else qToFixed 3 τ]
       ++ keys.map (fun key => jToFixed 4 (rec.result.indices.vegetation key))
       ++ keys.map (fun key => jToFixed 4 (rec.result.indices.whole key)))
      = rec.filename :: ([toString rec.result.totalPixels,
        toString rec.result.vegetationPixels,
        jToFixed 2 rec.result.vegetationCoverage, methodString method,
        if method = ThresholdMethod.otsu then "auto" else qToFixed 3 τ]
       ++ keys.map (fun key => jToFixed 4 (rec.result.indices.vegetation key))
       ++ keys.map (fun key => jToFixed 4 (rec.result.indices.whole key)))
      from rfl]
  rw [jsJoin_cons, sepFold_append, sepFold_append, sepFold_vegVals,
    sepFold_wholeVals, specRow]
  simp [sepFold, String.append_assoc]

lemma sepFold_rows (keys : List IndexKey) (method : ThresholdMethod) (τ : ℚ) :
    ∀ records : List BatchRecord,
      sepFold "\n"
        (records.map (fun result => jsJoin ","
          ([result.filename, toString result.result.totalPixels,
            toString result.result.vegetationPixels,
            jToFixed 2 result.result.vegetationCoverage, methodString method,
            if method = ThresholdMethod.otsu then "auto" else qToFixed 3 τ]
           ++ keys.map (fun key =>
                jToFixed 4 (result.result.indices.vegetation key))
           ++ keys.map (fun key =>
                jToFixed 4 (result.result.indices.whole key)))))
        = specRows keys method τ records := by
  intro records
  induction records with
  | nil => rfl
  | cons r rs ih =>
    simp only [List.map_cons, sepFold]
    rw [jsJoin_row keys method τ r, ih]
    simp only [specRows]

/-- C7: the CSV document built by the source equals, for every key order,
method, fixed threshold and record list, the document prescribed by the
spec: the fixed header then one vegetation and one whole column per key,
data rows in batch order, auto or the 3-decimal fixed value in the
Threshold Value cell, coverage to 2 and indices to 4 decimals, fields
joined by commas and rows by newlines, unquoted. -/
theorem downloadCSV_eq_spec (keys : List IndexKey) (method : ThresholdMethod)
    (τ : ℚ) (records : List BatchRecord) :
    downloadCSV keys method τ records = exportCsvSpec keys method τ records := by
  simp only [downloadCSV, exportCsvSpec]
  rw [jsJoin_cons, jsJoin_header, List.map_map]
  simp only [Function.comp_def]
  rw [sepFold_rows]
